import Mathlib

/-!
Verification of the predicate-to-filter translation and paginated streaming
core of the steampipe AWS plugin, shallowly embedded from
`aws/table_aws_ec2_ami_shared.go` (functions `listAmisByOwner`,
`getImageOwnerAlias`, `buildAmisWithOwnerFilter`) and from the
`aws_resource_explorer_supported_resource_type` table's list function
`listAWSExplorerSupportedTypes`.

External collaborators (the EC2 / ResourceExplorer clients, the query
engine's `StreamListItem` / `RowsRemaining`, the cached account-identity
hydrate) are parameters of the embedded functions:
  * a provider page fetch is an `Except String (List α)`;
  * the consumer's `RowsRemaining()` is a function from the number of rows
    streamed so far to the remaining row budget;
  * the cached identity call is an `Except String String`; the embedding
    additionally counts how many times it is invoked.
Go's `range` over a map iterates in an unspecified (randomized) order, so
the filter-building loop is parametrized by an iteration `order`, which in
any execution is some permutation of the static `filterQuals` table.
-/

namespace Aws

/-- A caller-supplied literal value in a predicate (qual). Go hands these
around as `interface{}`; the kinds occurring for this table are strings,
booleans and (for ill-typed predicates) numbers. -/
inductive Literal where
  | strL (s : String)
  | boolL (b : Bool)
  | intL (n : Int)
deriving DecidableEq

/-- `fmt.Sprint` on a single literal value. -/
def fmtSprint : Literal → String
  | .strL s => s
  | .boolL b => if b then "true" else "false"
  | .intL n => toString n

/-- The predicate map `d.Quals` / `d.KeyColumnQuals`: column name to the
literal of the qual set on it, `none` when the column has no qual. -/
def QualMap : Type := String → Option Literal

/-- `types.Filter`: a provider filter, a name plus a value set. -/
structure Filter where
  name : String
  values : List String
deriving DecidableEq

/-- The static column-to-provider-filter-key table `filterQuals` of
`buildAmisWithOwnerFilter`, in source (insertion) order.  Note the
`"image_id "` entry carries a trailing space exactly as in the source. -/
def filterQuals : List (String × String) :=
  [("architecture", "architecture"),
   ("description", "description"),
   ("ena_support", "ena-support"),
   ("hypervisor", "hypervisor"),
   ("image_id ", "image-id "),
   ("image_type", "image-type"),
   ("kernel_id", "kernel-id"),
   ("name", "name"),
   ("platform", "platform"),
   ("public", "is-public"),
   ("ramdisk_id", "ramdisk-id"),
   ("root_device_name", "root-device-name"),
   ("root_device_type", "root-device-type"),
   ("state", "state"),
   ("sriov_net_support", "sriov-net-support"),
   ("virtualization_type", "virtualization-type")]

/-- `columnsBool := []string{"ena_support", "public"}`. -/
def columnsBool : List String := ["ena_support", "public"]

/-- `fmt.Sprint` of a `[]string`, e.g. `"[ena_support public]"`. -/
def sprintStringList (l : List String) : String :=
  "[" ++ String.intercalate " " l ++ "]"

/-- Whether the first character list is a prefix of the second. -/
def leadsWith : List Char → List Char → Bool
  | [], _ => true
  | _ :: _, [] => false
  | a :: as, b :: bs => a == b && leadsWith as bs

/-- Whether `sub` occurs contiguously in the character list. -/
def containsSub (sub : List Char) : List Char → Bool
  | [] => leadsWith sub []
  | c :: cs => leadsWith sub (c :: cs) || containsSub sub cs

/-- `strings.Contains s sub`: contiguous substring test. -/
def strContains (s sub : String) : Bool :=
  containsSub sub.data s.data

/-- Modelled from the spec: `getQualsValueByColumn` is repository code that
is not among the given source files; per the spec's Qualifier Extractor
section it returns, for a recognized column present in the map, "the
literal value coerced to its expected kind", where "Boolean coercion
failure is tolerated by falling back to a formatted-string representation
rather than failing the query".  String coercion formats non-string
literals. -/
def getQualsValueByColumn (quals : QualMap) (col kind : String) : Literal :=
  match quals col with
  | none => .strL ""
  | some v =>
    if kind = "boolean" then
      match v with
      | .boolL b => .boolL b
      | _ => .strL (fmtSprint v)
    else
      match v with
      | .strL s => .strL s
      | _ => .strL (fmtSprint v)

/-- The body of the `for columnName, filterName := range filterQuals` loop
of `buildAmisWithOwnerFilter` for one present column: boolean columns
(membership test done, as in the source, by `strings.Contains` on
`fmt.Sprint(columnsBool)`) get `fmt.Sprint` of the boolean-coerced value;
other columns get the string-coerced value when the `.(string)` type
assertion succeeds, and an unset (empty) value list otherwise. -/
def buildFilterFor (quals : QualMap) (col fname : String) : Filter :=
  if strContains (sprintStringList columnsBool) col then
    { name := fname, values := [fmtSprint (getQualsValueByColumn quals col "boolean")] }
  else
    match getQualsValueByColumn quals col "string" with
    | .strL s => { name := fname, values := [s] }
    | _ => { name := fname, values := [] }

/-- The qual-translation loop of `buildAmisWithOwnerFilter`, walking the
map entries in iteration order `order` and appending one filter per
present column. -/
def buildQualFilters (quals : QualMap) : List (String × String) → List Filter
  | [] => []
  | (col, fname) :: rest =>
    if (quals col).isSome then
      buildFilterFor quals col fname :: buildQualFilters quals rest
    else
      buildQualFilters quals rest

/-- `buildAmisWithOwnerFilter`: the qual loop followed by the owner-scoping
section, which runs only when `amiType ≠ "SHARED_AMI"`: an explicit
`owner_id` qual is used verbatim; otherwise the cached identity call
(`identity`) supplies the account id, and on identity failure the function
returns the filters built so far (no owner filter, no error).  The second
component counts the identity-resolution calls made. -/
def buildAmisWithOwnerFilter (order : List (String × String)) (quals : QualMap)
    (amiType : String) (identity : Except String String) : List Filter × Nat :=
  let filters := buildQualFilters quals order
  if amiType ≠ "SHARED_AMI" then
    if (quals "owner_id").isSome then
      match getQualsValueByColumn quals "owner_id" "string" with
      | .strL s => (filters ++ [⟨"owner-id", [s]⟩], 0)
      | _ => (filters, 0)
    else
      match identity with
      | .error _ => (filters, 1)
      | .ok accountId => (filters ++ [⟨"owner-id", [accountId]⟩], 1)
  else
    (filters, 0)

/-- Terminal state of a listing run, following the spec's state machine:
`done` (input exhausted / nothing to list), `stoppedEarly` (consumer's
`RowsRemaining()` hit 0 after a streamed row), or an error returned to the
caller unchanged. -/
inductive Outcome where
  | done
  | stoppedEarly
  | err (e : String)
deriving DecidableEq

/-- Result of a listing run: the rows streamed (in order), the number of
provider page-fetch calls made, and the terminal outcome. -/
structure RunResult (α : Type) where
  streamed : List α
  fetches : Nat
  outcome : Outcome
deriving DecidableEq

/-- Streaming one fetched page: each item is `StreamListItem`ed, and after
each item the consumer's `RowsRemaining` is checked (on the count of rows
streamed so far); a zero budget stops the run immediately.  Returns the
items streamed from this page, the updated count, and whether the run
stopped early. -/
def streamPage {α : Type} (rr : Nat → Nat) : List α → Nat → List α × Nat × Bool
  | [], count => ([], count, false)
  | item :: rest, count =>
    if rr (count + 1) = 0 then
      ([item], count + 1, true)
    else
      let r := streamPage rr rest (count + 1)
      (item :: r.1, r.2.1, r.2.2)

/-- The paginator loop `for paginator.HasMorePages() { NextPage; stream }`:
`pages` is the sequence of page-fetch results the provider would return
(the paginator's cursor/duplicate-token bookkeeping is abstracted into
this sequence); a fetch error aborts the run and is returned unchanged. -/
def runPages {α : Type} (rr : Nat → Nat) :
    List (Except String (List α)) → Nat → RunResult α
  | [], _ => ⟨[], 0, .done⟩
  | .error e :: _, _ => ⟨[], 1, .err e⟩
  | .ok items :: rest, count =>
    let s := streamPage rr items count
    if s.2.2 then
      ⟨s.1, 1, .stoppedEarly⟩
    else
      let r := runPages rr rest s.2.1
      ⟨s.1 ++ r.streamed, 1 + r.fetches, r.outcome⟩

/-- `listAWSExplorerSupportedTypes`: client construction may fail (error
returned), may yield a nil client for an unsupported region (empty result,
no error), and otherwise the paginator loop runs. -/
def listAWSExplorerSupportedTypes {α : Type} (client : Except String (Option Unit))
    (pages : List (Except String (List α))) (rr : Nat → Nat) : RunResult α :=
  match client with
  | .error e => ⟨[], 0, .err e⟩
  | .ok none => ⟨[], 0, .done⟩
  | .ok (some _) => runPages rr pages 0

/-- `types.Image`, restricted to the fields this core reads.  Go's
`*string` pointers are `Option String`. -/
structure Image where
  ownerId : Option String
  imageOwnerAlias : Option String
deriving DecidableEq

/-- `ec2.DescribeImagesInput`, restricted to the fields this core sets. -/
structure DescribeImagesInput where
  owners : List String
  filters : List Filter
deriving DecidableEq

/-- `proto.QualValue.GetStringValue`: the string value of a qual, `""`
when absent or not a string. -/
def getStringValue : Option Literal → String
  | some (.strL s) => s
  | _ => ""

/-- The request-building prefix of `listAmisByOwner`: the `owner_id` key
qual becomes `input.Owners`, and `buildAmisWithOwnerFilter` is called with
`amiType = "SHARED_AMI"`.  Second component: identity-resolution calls
made while building the request. -/
def listAmisByOwnerInput (order : List (String × String)) (quals : QualMap)
    (identity : Except String String) : DescribeImagesInput × Nat :=
  let owner_id := getStringValue (quals "owner_id")
  let fi := buildAmisWithOwnerFilter order quals "SHARED_AMI" identity
  (⟨[owner_id], fi.1⟩, fi.2)

/-- `listAmisByOwner`: build the request, make the single `DescribeImages`
call (the source sets no `MaxResults`, so the provider's response is the
whole result set), then stream each image with the per-row
`RowsRemaining` check. -/
def listAmisByOwner (order : List (String × String)) (quals : QualMap)
    (client : Except String Unit)
    (describeImages : DescribeImagesInput → Except String (List Image))
    (identity : Except String String) (rr : Nat → Nat) : RunResult Image :=
  match client with
  | .error e => ⟨[], 0, .err e⟩
  | .ok _ =>
    match describeImages (listAmisByOwnerInput order quals identity).1 with
    | .error e => ⟨[], 1, .err e⟩
    | .ok images =>
      let s := streamPage rr images 0
      ⟨s.1, 1, if s.2.2 then .stoppedEarly else .done⟩

/-- `getImageOwnerAlias`: fetch the cached common-column data (identity);
on success, no explicit alias and a foreign owner yields the owner id, no
explicit alias and the caller's own account yields `"self"`, and an
explicit alias is returned verbatim.  The inner `Option` is `none` exactly
when the Go code would dereference a nil `OwnerId`. -/
def getImageOwnerAlias (identity : Except String String) (img : Image) :
    Except String (Option String) :=
  match identity with
  | .error e => .error e
  | .ok accountId =>
    .ok (match img.imageOwnerAlias, img.ownerId with
      | none, some owner => if accountId ≠ owner then some owner else some "self"
      | none, none => none
      | some a, _ => some a)

/-- The string value the translation puts into a recognized column's
filter: `fmt.Sprint` of the literal coerced for the column's kind. -/
def coercedValue (quals : QualMap) (col : String) : String :=
  if strContains (sprintStringList columnsBool) col then
    fmtSprint (getQualsValueByColumn quals col "boolean")
  else
    fmtSprint (getQualsValueByColumn quals col "string")

/-- A concrete image used in witness instantiations. -/
def img0 : Image := ⟨none, none⟩

/-- Concrete provider pages of sizes 50, 50 and 3, used in witness
instantiations. -/
def pages503 : List (List Image) :=
  [List.replicate 50 img0, List.replicate 50 img0, List.replicate 3 img0]

/-- A concrete qual map with the two string columns `architecture` and
`description` present, used in witness instantiations. -/
def cexQuals : QualMap := fun c =>
  if c = "architecture" then some (.strL "x86_64")
  else if c = "description" then some (.strL "d") else none

/-- A concrete qual map with the two boolean columns present, used in
witness instantiations. -/
def wQuals : QualMap := fun c =>
  if c = "ena_support" then some (.boolL true)
  else if c = "public" then some (.boolL false) else none

/-- A concrete qual map giving the boolean column `ena_support` a
non-boolean literal, used in witness instantiations. -/
def wQualsInt : QualMap := fun c =>
  if c = "ena_support" then some (.intL 7) else none

/-- `filterQuals` with its first two entries transposed: another possible
iteration order of the Go map. -/
def order2 : List (String × String) :=
  ("description", "description") :: ("architecture", "architecture") :: filterQuals.drop 2

/-! ## Streaming lemmas -/

/-- If the consumer's budget stays positive through the whole page, every
item is streamed and the run does not stop. -/
theorem streamPage_no_stop {α : Type} (rr : Nat → Nat) (items : List α) (count : Nat)
    (h : ∀ k, count < k → k ≤ count + items.length → rr k ≠ 0) :
    streamPage rr items count = (items, count + items.length, false) := by
  induction items generalizing count with
  | nil => simp [streamPage]
  | cons item rest ih =>
    have hne : rr (count + 1) ≠ 0 :=
      h _ (by omega) (by rw [List.length_cons]; omega)
    rw [streamPage, if_neg hne,
      ih (count + 1) (fun k h1 h2 => h k (by omega) (by rw [List.length_cons]; omega))]
    simp only [List.length_cons, Prod.mk.injEq]
    exact ⟨trivial, by omega, trivial⟩

/-- If the consumer's budget first hits zero at total count `n`, reached
inside this page, then exactly the first `n - count` items of the page are
streamed and the run stops. -/
theorem streamPage_stop {α : Type} (rr : Nat → Nat) (n : Nat) (items : List α) (count : Nat)
    (hlow : ∀ k, count < k → k < n → rr k ≠ 0) (hn : rr n = 0)
    (hc : count < n) (hlen : n ≤ count + items.length) :
    streamPage rr items count = (items.take (n - count), n, true) := by
  induction items generalizing count with
  | nil => simp at hlen; omega
  | cons item rest ih =>
    by_cases he : count + 1 = n
    · rw [streamPage, if_pos (he ▸ hn)]
      have : n - count = 1 := by omega
      simp [this, he]
    · have hlt : count + 1 < n := by omega
      have hne : rr (count + 1) ≠ 0 := hlow _ (by omega) hlt
      rw [streamPage, if_neg hne,
        ih (count + 1) (by intro k h1 h2; exact hlow k (by omega) h2) hlt (by simp at hlen ⊢; omega)]
      have : n - count = (n - (count + 1)) + 1 := by omega
      simp [this]

/-- With every page fetch succeeding and the budget never exhausted, the
paginator walks all pages, streams their concatenation and ends `done`. -/
theorem runPages_all_ok {α : Type} (rr : Nat → Nat) (pages : List (List α)) (count : Nat)
    (h : ∀ k, rr k ≠ 0) :
    runPages rr (pages.map .ok) count = ⟨pages.flatten, pages.length, .done⟩ := by
  induction pages generalizing count with
  | nil => simp [runPages]
  | cons page rest ih =>
    rw [List.map_cons, runPages,
      streamPage_no_stop rr page count (fun k _ _ => h k)]
    simp [ih]
    omega

/-- A page-fetch failure aborts the run at that page: rows of the earlier
pages stay streamed, the failing fetch is counted, the error is returned
unchanged, and the remaining pages are never fetched. -/
theorem runPages_err {α : Type} (rr : Nat → Nat) (good : List (List α)) (e : String)
    (rest : List (Except String (List α))) (count : Nat) (h : ∀ k, rr k ≠ 0) :
    runPages rr (good.map .ok ++ .error e :: rest) count
      = ⟨good.flatten, good.length + 1, .err e⟩ := by
  induction good generalizing count with
  | nil => simp [runPages]
  | cons page rest' ih =>
    rw [List.map_cons, List.cons_append, runPages,
      streamPage_no_stop rr page count (fun k _ _ => h k)]
    simp [ih]
    omega

/-! ## Claim theorems: streaming -/

/-- **C1.** For a multi-page provider response (all fetches succeeding,
here arbitrary pages) with a consumer that never signals early stop, each
listing function streams every item of every page and then terminates in
the `done` state: the explorer lister walks all pages, and
`listAmisByOwner` streams its whole single `DescribeImages` response,
which for a provider result of pages `pages` is their concatenation. -/
theorem c1_streams_all_pages_then_done (pages : List (List Image)) (rr : Nat → Nat)
    (order : List (String × String)) (quals : QualMap) (identity : Except String String)
    (hrr : ∀ k, rr k ≠ 0) :
    listAWSExplorerSupportedTypes (.ok (some ())) (pages.map .ok) rr
      = ⟨pages.flatten, pages.length, .done⟩ ∧
    listAmisByOwner order quals (.ok ()) (fun _ => .ok pages.flatten) identity rr
      = ⟨pages.flatten, 1, .done⟩ := by
  constructor
  · simpa [listAWSExplorerSupportedTypes] using runPages_all_ok rr pages 0 hrr
  · simp [listAmisByOwner,
      streamPage_no_stop rr pages.flatten 0 (fun k _ _ => hrr k)]

/-- Witness for C1 at pages of sizes [50, 50, 3]: exactly 103 rows are
streamed and both runs end `done`. -/
theorem c1_witness :
    listAWSExplorerSupportedTypes (.ok (some ())) (pages503.map .ok) (fun _ => 1)
      = ⟨pages503.flatten, 3, .done⟩ ∧
    pages503.flatten.length = 103 ∧
    listAmisByOwner filterQuals (fun _ => none) (.ok ()) (fun _ => .ok pages503.flatten)
      (.ok "111111111111") (fun _ => 1)
      = ⟨pages503.flatten, 1, .done⟩ := by
  have h := c1_streams_all_pages_then_done pages503 (fun _ => 1) filterQuals (fun _ => none)
    (.ok "111111111111") (fun _ => Nat.one_ne_zero)
  exact ⟨h.1, by decide, h.2⟩

/-- **C4.** If `RowsRemaining` is still positive after each of the first 9
streamed rows and returns 0 immediately after the 10th, each listing
function stops after exactly 10 streamed rows in the `stoppedEarly` state
and fetches no further pages: the explorer lister makes exactly one page
fetch however many pages remain, and the AMI lister stops inside its
single response.  The per-row check is what makes the cut exact. -/
theorem c4_early_stop_after_ten_rows (items : List Image)
    (rest : List (Except String (List Image))) (rr : Nat → Nat)
    (order : List (String × String)) (quals : QualMap) (identity : Except String String)
    (hlen : 10 ≤ items.length)
    (hpre : ∀ k, 1 ≤ k → k < 10 → rr k ≠ 0) (h10 : rr 10 = 0) :
    listAWSExplorerSupportedTypes (.ok (some ())) (.ok items :: rest) rr
      = ⟨items.take 10, 1, .stoppedEarly⟩ ∧
    listAmisByOwner order quals (.ok ()) (fun _ => .ok items) identity rr
      = ⟨items.take 10, 1, .stoppedEarly⟩ ∧
    (items.take 10).length = 10 := by
  have hs := streamPage_stop rr 10 items 0 (fun k hk1 hk2 => hpre k hk1 hk2) h10
    (by omega) (by omega)
  refine ⟨?_, ?_, ?_⟩
  · simp [listAWSExplorerSupportedTypes, runPages, hs]
  · simp [listAmisByOwner, hs]
  · simp [List.length_take]; omega

/-- Witness for C4: a budget of 10 on pages of sizes [50, 50, 3] stops
both listers at exactly the first 10 rows after a single fetch. -/
theorem c4_witness :
    listAWSExplorerSupportedTypes (.ok (some ()))
        (pages503.map .ok) (fun k => 10 - k)
      = ⟨(List.replicate 50 img0).take 10, 1, .stoppedEarly⟩ ∧
    listAmisByOwner filterQuals (fun _ => none) (.ok ())
        (fun _ => .ok (List.replicate 50 img0)) (.ok "111111111111") (fun k => 10 - k)
      = ⟨(List.replicate 50 img0).take 10, 1, .stoppedEarly⟩ ∧
    ((List.replicate 50 img0).take 10).length = 10 := by
  have h := c4_early_stop_after_ten_rows (List.replicate 50 img0)
    [Except.ok (List.replicate 50 img0), Except.ok (List.replicate 3 img0)]
    (fun k => 10 - k) filterQuals (fun _ => none) (.ok "111111111111")
    (by simp) (fun k h1 h9 => by show 10 - k ≠ 0; omega) (by show (10 : Nat) - 10 = 0; rfl)
  exact ⟨h.1, h.2.1, h.2.2⟩

/-- **C7.** A page-fetch error aborts the listing run immediately: rows
already streamed stay streamed, no further row is streamed, the remaining
pages are never fetched (the result does not depend on `rest`), and the
error is returned to the caller unchanged, with no retry; for the AMI
lister the failing call is its single `DescribeImages`, so nothing is
streamed. -/
theorem c7_fetch_error_aborts (good : List (List Image)) (e : String)
    (rest : List (Except String (List Image))) (rr : Nat → Nat)
    (order : List (String × String)) (quals : QualMap) (identity : Except String String)
    (hrr : ∀ k, rr k ≠ 0) :
    listAWSExplorerSupportedTypes (.ok (some ())) (good.map .ok ++ .error e :: rest) rr
      = ⟨good.flatten, good.length + 1, .err e⟩ ∧
    listAmisByOwner order quals (.ok ()) (fun _ => .error e) identity rr
      = ⟨[], 1, .err e⟩ := by
  constructor
  · simpa [listAWSExplorerSupportedTypes] using runPages_err rr good e rest 0 hrr
  · simp [listAmisByOwner]

/-- Witness for C7: a failure fetching the second page aborts after the
first page's 50 rows; a failing `DescribeImages` streams nothing. -/
theorem c7_witness :
    listAWSExplorerSupportedTypes (.ok (some ()))
        ([List.replicate 50 img0].map .ok
          ++ .error "api_error" :: [Except.ok (List.replicate 3 img0)]) (fun _ => 1)
      = ⟨[List.replicate 50 img0].flatten, 2, .err "api_error"⟩ ∧
    listAmisByOwner filterQuals (fun _ => none) (.ok ()) (fun _ => .error "api_error")
        (.ok "111111111111") (fun _ => 1)
      = ⟨[], 1, .err "api_error"⟩ := by
  exact c7_fetch_error_aborts [List.replicate 50 img0] "api_error"
    [Except.ok (List.replicate 3 img0)] (fun _ => 1) filterQuals (fun _ => none)
    (.ok "111111111111") (fun _ => Nat.one_ne_zero)

/-- **C10.** When the Resource Explorer client for the region is nil
(construction succeeded but the region is unsupported), the listing
returns an empty result with no error: no row is streamed, no page is
fetched, and the run ends `done` rather than failing, whatever the
provider would have returned and whatever the consumer's budget. -/
theorem c10_nil_client_empty_result (pages : List (Except String (List Image)))
    (rr : Nat → Nat) :
    listAWSExplorerSupportedTypes (.ok none) pages rr = ⟨[], 0, .done⟩ := rfl

/-! ## Claim theorems: row enrichment -/

/-- **C3.** `getImageOwnerAlias`, once the cached account id resolves: an
image with no explicit alias owned by the caller's account yields
`"self"`; no explicit alias and a different owner yields that owner id
verbatim; an explicit alias is returned verbatim whatever the owner. -/
theorem c3_owner_alias_enrichment (accountId : String) (img : Image) :
    (img.imageOwnerAlias = none → img.ownerId = some accountId →
      getImageOwnerAlias (.ok accountId) img = .ok (some "self")) ∧
    (∀ oid, img.imageOwnerAlias = none → img.ownerId = some oid → oid ≠ accountId →
      getImageOwnerAlias (.ok accountId) img = .ok (some oid)) ∧
    (∀ a, img.imageOwnerAlias = some a →
      getImageOwnerAlias (.ok accountId) img = .ok (some a)) := by
  refine ⟨?_, ?_, ?_⟩
  · intro h1 h2
    simp [getImageOwnerAlias, h1, h2]
  · intro oid h1 h2 h3
    simp [getImageOwnerAlias, h1, h2, Ne.symm h3]
  · intro a h1
    cases himg : img.ownerId <;> simp [getImageOwnerAlias, h1, himg]

/-- Witness for C3: the three enrichment cases at concrete images. -/
theorem c3_witness :
    getImageOwnerAlias (.ok "111111111111") ⟨some "111111111111", none⟩
      = .ok (some "self") ∧
    getImageOwnerAlias (.ok "111111111111") ⟨some "222222222222", none⟩
      = .ok (some "222222222222") ∧
    getImageOwnerAlias (.ok "111111111111") ⟨some "222222222222", some "amazon"⟩
      = .ok (some "amazon") := by
  refine ⟨(c3_owner_alias_enrichment "111111111111" ⟨some "111111111111", none⟩).1 rfl rfl,
    (c3_owner_alias_enrichment "111111111111" ⟨some "222222222222", none⟩).2.1
      "222222222222" rfl rfl (by decide),
    (c3_owner_alias_enrichment "111111111111" ⟨some "222222222222", some "amazon"⟩).2.2
      "amazon" rfl⟩

/-! ## Filter-translation lemmas -/

/-- The filter built for a column always carries its iteration entry's
filter key as name. -/
theorem buildFilterFor_name (quals : QualMap) (col fname : String) :
    (buildFilterFor quals col fname).name = fname := by
  unfold buildFilterFor
  split
  · rfl
  · split <;> rfl

/-- The modelled string coercion always yields a string literal, so the
source's `.(string)` type assertion succeeds. -/
theorem getQualsValueByColumn_string (quals : QualMap) (col : String) :
    ∃ s, getQualsValueByColumn quals col "string" = .strL s := by
  unfold getQualsValueByColumn
  cases quals col with
  | none => exact ⟨"", rfl⟩
  | some v =>
    cases v with
    | strL s => exact ⟨s, rfl⟩
    | boolL b => exact ⟨fmtSprint (.boolL b), rfl⟩
    | intL n => exact ⟨fmtSprint (.intL n), rfl⟩

/-- The filter built for a column is its filter key together with the
singleton of the column's coerced value. -/
theorem buildFilterFor_eq (quals : QualMap) (col fname : String) :
    buildFilterFor quals col fname = ⟨fname, [coercedValue quals col]⟩ := by
  obtain ⟨s, hs⟩ := getQualsValueByColumn_string quals col
  by_cases hcond : strContains (sprintStringList columnsBool) col
  · simp [buildFilterFor, coercedValue, hcond]
  · simp [buildFilterFor, coercedValue, hcond, hs, fmtSprint]

/-- The translation loop is the per-entry build mapped over the present
entries of the iteration order. -/
theorem buildQualFilters_eq_map (quals : QualMap) (order : List (String × String)) :
    buildQualFilters quals order
      = (order.filter (fun p => (quals p.1).isSome)).map
          (fun p => buildFilterFor quals p.1 p.2) := by
  induction order with
  | nil => rfl
  | cons p rest ih =>
    obtain ⟨col, fname⟩ := p
    by_cases h : (quals col).isSome
    · simp [buildQualFilters, h, List.filter_cons, ih]
    · simp [buildQualFilters, h, List.filter_cons, ih]

/-- With `amiType = "SHARED_AMI"` (the `listAmisByOwner` call site) the
owner-scoping section is skipped entirely: the output is the loop's
filters and no identity-resolution call is made. -/
theorem buildAmisWithOwnerFilter_shared (order : List (String × String)) (quals : QualMap)
    (identity : Except String String) :
    buildAmisWithOwnerFilter order quals "SHARED_AMI" identity
      = (buildQualFilters quals order, 0) := by
  simp [buildAmisWithOwnerFilter]

/-- The static table maps no two columns to the same filter key. -/
theorem filterQuals_snd_nodup : (filterQuals.map Prod.snd).Nodup := by decide

/-- No static-table entry carries the owner-scoping key. -/
theorem filterQuals_snd_ne_owner : ∀ p ∈ filterQuals, p.2 ≠ "owner-id" := by decide

/-! ## Claim theorems: filter translation -/

/-- **C2.** For any Go map iteration order and any predicate map containing
only recognized columns, the `"SHARED_AMI"` call of
`buildAmisWithOwnerFilter` emits exactly one filter per recognized column
present: for each such column exactly one emitted filter carries its
static filter key, a filter with that key and the singleton of the
column's coerced value is emitted, and the total number of emitted
filters is the number of present recognized columns. -/
theorem c2_one_filter_per_recognized_column
    (order : List (String × String)) (quals : QualMap) (identity : Except String String)
    (horder : order.Perm filterQuals)
    (_honly : ∀ c, (quals c).isSome → ∃ f, (c, f) ∈ filterQuals)
    (col fname : String) (hmem : (col, fname) ∈ filterQuals)
    (hpres : (quals col).isSome) :
    ((buildAmisWithOwnerFilter order quals "SHARED_AMI" identity).1.countP
        (fun f => f.name == fname)) = 1 ∧
    Filter.mk fname [coercedValue quals col]
      ∈ (buildAmisWithOwnerFilter order quals "SHARED_AMI" identity).1 ∧
    (buildAmisWithOwnerFilter order quals "SHARED_AMI" identity).1.length
      = (filterQuals.filter (fun p => (quals p.1).isSome)).length := by
  have hbs : (buildAmisWithOwnerFilter order quals "SHARED_AMI" identity).1
      = (order.filter (fun p => (quals p.1).isSome)).map
          (fun p => buildFilterFor quals p.1 p.2) := by
    rw [buildAmisWithOwnerFilter_shared, buildQualFilters_eq_map]
  rw [hbs]
  have hpermf : (order.filter (fun p => (quals p.1).isSome)).Perm
      (filterQuals.filter (fun p => (quals p.1).isSome)) :=
    horder.filter _
  refine ⟨?_, ?_, ?_⟩
  · rw [List.countP_map]
    have hc : ((order.filter (fun p => (quals p.1).isSome)).countP
          ((fun f => f.name == fname) ∘ fun p => buildFilterFor quals p.1 p.2))
        = ((order.filter (fun p => (quals p.1).isSome)).map Prod.snd).count fname := by
      show _ = List.countP (· == fname) _
      rw [List.countP_map]
      apply List.countP_congr
      intro p _
      simp [Function.comp, buildFilterFor_name]
    rw [hc, (hpermf.map Prod.snd).count_eq fname]
    apply List.count_eq_one_of_mem
    · exact filterQuals_snd_nodup.sublist ((List.filter_sublist filterQuals).map Prod.snd)
    · exact List.mem_map.mpr ⟨(col, fname), List.mem_filter.mpr ⟨hmem, hpres⟩, rfl⟩
  · refine List.mem_map.mpr ⟨(col, fname), ?_, buildFilterFor_eq quals col fname⟩
    exact List.mem_filter.mpr ⟨horder.mem_iff.mpr hmem, hpres⟩
  · rw [List.length_map, hpermf.length_eq]

/-- Witness for C2: with only `ena_support` (true) and `public` (false)
present and the source's own table order, exactly one `ena-support` filter
is emitted, it carries `"true"`, and two filters are emitted in total. -/
theorem c2_witness :
    ((buildAmisWithOwnerFilter filterQuals wQuals "SHARED_AMI" (.ok "111111111111")).1.countP
        (fun f => f.name == "ena-support")) = 1 ∧
    Filter.mk "ena-support" [coercedValue wQuals "ena_support"]
      ∈ (buildAmisWithOwnerFilter filterQuals wQuals "SHARED_AMI" (.ok "111111111111")).1 ∧
    (buildAmisWithOwnerFilter filterQuals wQuals "SHARED_AMI" (.ok "111111111111")).1.length
      = (filterQuals.filter (fun p => (wQuals p.1).isSome)).length := by
  apply c2_one_filter_per_recognized_column filterQuals wQuals (.ok "111111111111")
    (List.Perm.refl _)
  · intro c hc
    by_cases h1 : c = "ena_support"
    · exact ⟨"ena-support", by rw [h1]; decide⟩
    · by_cases h2 : c = "public"
      · exact ⟨"is-public", by rw [h2]; decide⟩
      · simp [wQuals, h1, h2] at hc
  · decide
  · decide

/-- **C5.** With an explicit `owner_id` predicate, `listAmisByOwner` uses
the predicate value verbatim as the `Owners` scoping value of the
`DescribeImages` request, and no identity-resolution call is made while
building the request; in particular the built request does not depend on
the identity resolver at all. -/
theorem c5_explicit_owner_verbatim_no_identity_call
    (order : List (String × String)) (quals : QualMap) (identity : Except String String)
    (oid : String) (hq : quals "owner_id" = some (.strL oid)) :
    (listAmisByOwnerInput order quals identity).1.owners = [oid] ∧
    (listAmisByOwnerInput order quals identity).2 = 0 ∧
    (∀ identity2, (listAmisByOwnerInput order quals identity).1
        = (listAmisByOwnerInput order quals identity2).1) := by
  refine ⟨?_, ?_, ?_⟩
  · simp [listAmisByOwnerInput, getStringValue, hq]
  · simp [listAmisByOwnerInput, buildAmisWithOwnerFilter_shared]
  · intro identity2
    simp [listAmisByOwnerInput, buildAmisWithOwnerFilter_shared]

/-- Witness for C5 at `owner_id = "111111111111"`. -/
theorem c5_witness :
    (listAmisByOwnerInput filterQuals
        (fun c => if c = "owner_id" then some (.strL "111111111111") else none)
        (.error "identity down")).1.owners = ["111111111111"] ∧
    (listAmisByOwnerInput filterQuals
        (fun c => if c = "owner_id" then some (.strL "111111111111") else none)
        (.error "identity down")).2 = 0 ∧
    (∀ identity2, (listAmisByOwnerInput filterQuals
        (fun c => if c = "owner_id" then some (.strL "111111111111") else none)
        (.error "identity down")).1
      = (listAmisByOwnerInput filterQuals
          (fun c => if c = "owner_id" then some (.strL "111111111111") else none)
          identity2).1) :=
  c5_explicit_owner_verbatim_no_identity_call filterQuals
    (fun c => if c = "owner_id" then some (.strL "111111111111") else none)
    (.error "identity down") "111111111111" (by simp)

/-- **C6.** When identity resolution is needed only for optional owner
scoping (a non-`"SHARED_AMI"` ami type with no explicit `owner_id` qual)
and the resolution call fails, `buildAmisWithOwnerFilter` returns exactly
the filters built by the qual loop so far — no owner-scoping filter is
among them — and, its return type carrying no error channel, the failure
is not propagated: the query proceeds unscoped. -/
theorem c6_identity_failure_degrades_to_unscoped
    (order : List (String × String)) (quals : QualMap) (amiType e : String)
    (horder : order.Perm filterQuals)
    (hA : amiType ≠ "SHARED_AMI") (hno : quals "owner_id" = none) :
    (buildAmisWithOwnerFilter order quals amiType (.error e)).1
      = buildQualFilters quals order ∧
    ∀ f ∈ (buildAmisWithOwnerFilter order quals amiType (.error e)).1,
      f.name ≠ "owner-id" := by
  have hres : buildAmisWithOwnerFilter order quals amiType (.error e)
      = (buildQualFilters quals order, 1) := by
    simp [buildAmisWithOwnerFilter, hA, hno]
  refine ⟨by rw [hres], ?_⟩
  rw [hres]
  intro f hf
  rw [buildQualFilters_eq_map] at hf
  obtain ⟨p, hp, rfl⟩ := List.mem_map.mp hf
  rw [buildFilterFor_name]
  exact filterQuals_snd_ne_owner p (horder.mem_iff.mp (List.mem_filter.mp hp).1)

/-- Witness for C6: identity down, `aws_ec2_ami`-style call
(`amiType = "OWNED_AMI"`), no owner qual: the two qual filters survive and
no owner filter appears. -/
theorem c6_witness :
    (buildAmisWithOwnerFilter filterQuals cexQuals "OWNED_AMI" (.error "identity down")).1
      = buildQualFilters cexQuals filterQuals ∧
    ∀ f ∈ (buildAmisWithOwnerFilter filterQuals cexQuals "OWNED_AMI"
        (.error "identity down")).1, f.name ≠ "owner-id" :=
  c6_identity_failure_degrades_to_unscoped filterQuals cexQuals "OWNED_AMI" "identity down"
    (List.Perm.refl _) (by decide) (by simp [cexQuals])

/-- **C8 counterexample.** The claim that filters are emitted in the
insertion order of the static mapping — so that two runs of the translator
on the same predicate map produce the filters in the same order — is false
on the code: the loop ranges over a Go map, whose iteration order is
unspecified and randomized per run.  Two legal iteration orders of the
very same static map (the source order, and the same entries with the
first two transposed) produce the same predicate map's filters in
different orders. -/
theorem c8_counterexample :
    order2.Perm filterQuals ∧
    (buildAmisWithOwnerFilter order2 cexQuals "SHARED_AMI" (.ok "111111111111")).1
      ≠ (buildAmisWithOwnerFilter filterQuals cexQuals "SHARED_AMI"
          (.ok "111111111111")).1 := by
  constructor
  · exact List.Perm.swap _ _ _
  · decide

/-- **C8 amended.** What does hold: for a fixed iteration order the
translation is deterministic, and across any two iteration orders of the
static map the emitted filters agree up to permutation — the content is
order-independent even though the emission order is whatever order Go
happens to iterate the map in. -/
theorem c8_amended_filters_order_independent_content
    (o1 o2 : List (String × String)) (quals : QualMap) (amiType : String)
    (identity : Except String String)
    (h1 : o1.Perm filterQuals) (h2 : o2.Perm filterQuals) :
    ((buildAmisWithOwnerFilter o1 quals amiType identity).1).Perm
      ((buildAmisWithOwnerFilter o2 quals amiType identity).1) := by
  have h12 : o1.Perm o2 := h1.trans h2.symm
  have hq : (buildQualFilters quals o1).Perm (buildQualFilters quals o2) := by
    rw [buildQualFilters_eq_map, buildQualFilters_eq_map]
    exact (h12.filter _).map _
  unfold buildAmisWithOwnerFilter
  by_cases hA : amiType = "SHARED_AMI"
  · simp only [hA, ne_eq, not_true_eq_false, if_false]
    exact hq
  · simp only [ne_eq, hA, not_false_eq_true, if_true]
    by_cases ho : (quals "owner_id").isSome
    · simp only [ho, if_true]
      cases hgq : getQualsValueByColumn quals "owner_id" "string" with
      | strL s => exact hq.append_right _
      | boolL b => exact hq
      | intL n => exact hq
    · simp only [ho, Bool.false_eq_true, if_false]
      cases identity with
      | error e => exact hq
      | ok accountId => exact hq.append_right _

/-- Witness for the amended C8: the source order and the transposed order
emit permutations of each other on a concrete predicate map. -/
theorem c8_witness :
    ((buildAmisWithOwnerFilter filterQuals cexQuals "SHARED_AMI"
        (.ok "111111111111")).1).Perm
      ((buildAmisWithOwnerFilter order2 cexQuals "SHARED_AMI"
        (.ok "111111111111")).1) :=
  c8_amended_filters_order_independent_content filterQuals order2 cexQuals "SHARED_AMI"
    (.ok "111111111111") (List.Perm.refl _) (List.Perm.swap _ _ _)

/-- **C9.** A predicate on a boolean-kinded column (`ena_support` or
`public`) whose literal cannot be coerced to a boolean does not fail the
translation: the emitted filter's value is `fmt.Sprint` of the uncoerced
literal (the modelled `getQualsValueByColumn` falls back to the
formatted-string representation, and the loop formats it again
unchanged). -/
theorem c9_bool_coercion_fallback (quals : QualMap) (col fname : String) (v : Literal)
    (hcol : col ∈ columnsBool) (hv : quals col = some v)
    (hnb : ∀ b, v ≠ .boolL b) :
    buildFilterFor quals col fname = ⟨fname, [fmtSprint v]⟩ := by
  have hcond : strContains (sprintStringList columnsBool) col = true := by
    rcases List.mem_pair.mp hcol with h | h <;> rw [h] <;> decide
  have hgq : getQualsValueByColumn quals col "boolean" = .strL (fmtSprint v) := by
    unfold getQualsValueByColumn
    rw [hv]
    cases v with
    | strL s => rfl
    | boolL b => exact absurd rfl (hnb b)
    | intL n => rfl
  rw [buildFilterFor, if_pos hcond, hgq]
  simp [fmtSprint]

/-- Witness for C9: `ena_support = 7` (an integer on a boolean column)
yields the `ena-support` filter with value `"7"`. -/
theorem c9_witness :
    buildFilterFor wQualsInt "ena_support" "ena-support" = ⟨"ena-support", ["7"]⟩ :=
  c9_bool_coercion_fallback wQualsInt "ena_support" "ena-support" (.intL 7)
    (by decide) (by simp [wQualsInt]) (fun b => by simp)

end Aws
